import Mathlib

/-!
Shallow embedding of the checkpointed sourcing workflow of the
resume-screening backend (TypeScript sources under `src/lib/sourcing`,
`src/routes`), together with proofs about its tiered query selection,
search/enrichment loop, workflow branching, no-candidate handling and
the cron recovery sweep.

Conventions of the embedding:
* JS strings stay `String`, JS numbers that are used as counters,
  identifiers or millisecond timestamps become `Nat` or `Int`.
* JS `Set` objects whose observable use is membership/insert/emptiness
  become `Finset`.
* Nullable JSON columns become `Option` (`none` = SQL `NULL`;
  `some` = a present value, even when it is the empty array).
* External calls (the Apify search, the SalesQL enrichment HTTP call,
  Prisma lookups) are passed in as explicit oracle arguments, and the
  Prisma `update` payloads a node issues are returned as explicit
  record values so theorems can talk about what got persisted.
-/

namespace Sourcing

/-! ### Query plan (generate-queries.ts) -/

/-- One concrete tiered search query, as built by
`generateQueriesFromVariants` in `generate-queries.ts` (the fields the
orchestration logic reads; presentation-only fields such as
`variantReasoning` are omitted). -/
structure SearchQuery where
  tier : Nat
  type : String
  variant : Nat
  queryId : Nat
  description : String
  searchQuery : String
  currentJobTitles : List String
  industryIds : List Nat
  maxItems : Nat
  takePages : List Nat
  deriving Repr, DecidableEq

/-- One AI-produced search variant (the fields `generateQueriesFromVariants`
reads from each variant object). -/
structure Variant where
  searchQuery : String
  currentJobTitles : List String
  locations : List String
  industryIds : List Nat
  takePages : Option (List Nat)
  deriving Repr, DecidableEq

/-- `variant.searchQuery.replace(/ AND /g, ' OR ')` of tier 3. -/
def orRewrite (s : String) : String :=
  s.replace " AND " " OR "

/-- The three tiered queries built for the variant at (0-based) index
`variantIdx`; `queryId`s are consecutive starting at `3 * variantIdx`,
matching the running counter in the source. -/
def queriesForVariant (maxCandidates : Nat) (variantIdx : Nat) (v : Variant) :
    List SearchQuery :=
  let variantNum := variantIdx + 1
  let baseId := 3 * variantIdx
  [ { tier := 1
      type := "precise"
      variant := variantNum
      queryId := baseId
      description := s!"Variant {variantNum} - Precise (all filters)"
      searchQuery := v.searchQuery
      currentJobTitles := v.currentJobTitles
      industryIds := v.industryIds
      maxItems := maxCandidates
      takePages := v.takePages.getD [1, 2, 3] },
    { tier := 2
      type := "broad"
      variant := variantNum
      queryId := baseId + 1
      description := s!"Variant {variantNum} - Broad (no industry filter)"
      searchQuery := v.searchQuery
      currentJobTitles := v.currentJobTitles.take 5
      industryIds := []
      maxItems := maxCandidates
      takePages := v.takePages.getD [1, 2, 3] },
    { tier := 3
      type := "alternative"
      variant := variantNum
      queryId := baseId + 2
      description := s!"Variant {variantNum} - Alternative (OR logic)"
      searchQuery := orRewrite v.searchQuery
      currentJobTitles := v.currentJobTitles
      industryIds := []
      maxItems := maxCandidates
      takePages := [1, 2, 3, 4] } ]

/-- `generateQueriesFromVariants(variants, maxCandidates)`:
tiers 1/2/3 for each variant, with sequential `queryId`s. -/
def generateQueriesFromVariants (variants : List Variant) (maxCandidates : Nat) :
    List SearchQuery :=
  (variants.enum.map fun (i, v) => queriesForVariant maxCandidates i v).flatten

/-- Every generated query carries tier 1, 2 or 3. -/
theorem generateQueries_tier_valid (variants : List Variant) (maxCandidates : Nat) :
    ∀ q ∈ generateQueriesFromVariants variants maxCandidates,
      q.tier = 1 ∨ q.tier = 2 ∨ q.tier = 3 := by
  intro q hq
  simp only [generateQueriesFromVariants, List.mem_flatten, List.mem_map] at hq
  obtain ⟨l, ⟨⟨i, v⟩, _, rfl⟩, hql⟩ := hq
  simp only [queriesForVariant, List.mem_cons, List.not_mem_nil, or_false] at hql
  rcases hql with rfl | rfl | rfl <;> simp

/-! ### Tier-based query selection (search-profiles.ts, lines 11-50) -/

/-- The tier bucket for `t`: the JS code groups into `tierGroups[1..3]` and
only pushes a query when `query.tier` is truthy and one of those keys. -/
def tierGroup (queries : List SearchQuery) (t : Nat) : List SearchQuery :=
  queries.filter fun q => q.tier = t

/-- `tierGroups[tier].filter(q => !usedIndices.has(q.queryId))`. -/
def availableIn (queries : List SearchQuery) (used : Finset Nat) (t : Nat) :
    List SearchQuery :=
  (tierGroup queries t).filter fun q => q.queryId ∉ used

/-- `selectNextQueryByTier(queries, usedIndices, preferTier)`:
if `preferTier` is truthy and names one of the groups and that group has
an unused query, return the first such; otherwise scan tiers 1 → 2 → 3
and return the first unused query; `none` when everything is used. -/
def selectNextQueryByTier (queries : List SearchQuery) (used : Finset Nat)
    (preferTier : Option Nat) : Option SearchQuery :=
  let preferred : Option SearchQuery :=
    match preferTier with
    | some t =>
      if t = 1 ∨ t = 2 ∨ t = 3 then (availableIn queries used t).head? else none
    | none => none
  match preferred with
  | some q => some q
  | none =>
    match (availableIn queries used 1).head? with
    | some q => some q
    | none =>
      match (availableIn queries used 2).head? with
      | some q => some q
      | none => (availableIn queries used 3).head?

/-! ### Workflow branch after enrich (workflow.ts, lines 47-90) -/

/-- The four labels returned by the conditional edge after
`enrich_and_create`. -/
inductive Route where
  | scrape
  | search_again
  | no_candidates
  | stop
  deriving Repr, DecidableEq

/-- The state fields the conditional branch reads. -/
structure BranchState where
  currentStage : String
  candidatesWithEmails : Nat
  maxCandidates : Nat
  searchIterations : Nat
  deriving Repr, DecidableEq

/-- The conditional edge of `createSourcingWorkflow`: rate-limit check
first, then target check, then the 5-iteration ceiling, else loop. -/
def routeAfterEnrich (s : BranchState) : Route :=
  if s.currentStage = "RATE_LIMITED" then
    Route.stop
  else if s.candidatesWithEmails ≥ s.maxCandidates then
    Route.scrape
  else if s.searchIterations ≥ 5 then
    if s.candidatesWithEmails > 0 then Route.scrape else Route.no_candidates
  else
    Route.search_again

/-! ### SalesQL enrichment (enrich-and-create.ts, lines 50-127) -/

/-- One entry of the `emails` array of a SalesQL person response. -/
structure SalesQLEmail where
  email : String
  type : String
  status : String
  deriving Repr, DecidableEq

/-- One entry of the `phones` array of a SalesQL person response. -/
structure SalesQLPhone where
  phone : String
  type : String
  is_valid : Option Bool
  deriving Repr, DecidableEq

/-- The parts of a SalesQL HTTP response the enrichment helper reads:
the status code, the `X-RateLimit-Reset` / `Retry-After` header (epoch
seconds) when present, and the decoded JSON body. -/
structure SalesQLHttpResponse where
  status : Nat
  resetHeader : Option Nat
  emails : List SalesQLEmail
  phones : List SalesQLPhone
  deriving Repr, DecidableEq

/-- `response.ok` of the Fetch API: status in [200, 300). -/
def responseOk (r : SalesQLHttpResponse) : Bool :=
  200 ≤ r.status ∧ r.status < 300

/-- The value of the `SalesQLResult` interface. -/
structure SalesQLResult where
  hasEmail : Bool
  email : Option String
  phone : Option String
  emailType : Option String
  emailStatus : Option String
  deriving Repr, DecidableEq

/-- The metadata carried by a thrown `RateLimitError`
(`lib/errors/rate-limit-error.ts`): provider tag, reset timestamp
(milliseconds), message. -/
structure RateLimitMeta where
  type : String
  resetAt : Nat
  message : String
  deriving Repr, DecidableEq

/-- The body of the `try` block of `enrichWithSalesQL`: throw a
`RateLimitError` on HTTP 429 (reset time from the header in epoch
seconds, else now + 24h), return `hasEmail: false` on any other non-ok
response or an email-less body, and otherwise pick the best email
(valid+direct, else valid, else first) and best phone (valid, else
first). `now` is `Date.now()` in milliseconds. -/
def enrichTryBlock (now : Nat) (r : SalesQLHttpResponse) :
    Except RateLimitMeta SalesQLResult :=
  if r.status = 429 then
    .error
      { type := "salesql"
        resetAt :=
          match r.resetHeader with
          | some secs => secs * 1000
          | none => now + 24 * 60 * 60 * 1000
        message := "Email enrichment service limit reached. Will retry automatically." }
  else if ¬ responseOk r then
    .ok { hasEmail := false, email := none, phone := none
          emailType := none, emailStatus := none }
  else
    match r.emails with
    | [] =>
      .ok { hasEmail := false, email := none, phone := none
            emailType := none, emailStatus := none }
    | e₀ :: _ =>
      let validDirect := r.emails.find? fun e => e.status = "Valid" ∧ e.type = "Direct"
      let validAny := r.emails.find? fun e => e.status = "Valid"
      let bestEmail := (validDirect.or validAny).getD e₀
      let phone :=
        match r.phones with
        | [] => none
        | p₀ :: _ =>
          let validPhone := r.phones.find? fun p => p.is_valid = some true
          some (validPhone.getD p₀).phone
      .ok { hasEmail := true
            email := some bestEmail.email
            phone := phone
            emailType := some bestEmail.type
            emailStatus := some bestEmail.status }

/-- `enrichWithSalesQL(linkedinUrl, apiKey)` as the caller observes it.
`response = none` models the `fetch` call itself throwing. The whole
`try` body sits inside a `catch (error) { return { hasEmail: false } }`,
so every thrown error — including the `RateLimitError` built for HTTP
429 — is converted to a plain no-email result. -/
def enrichWithSalesQL (now : Nat) (response : Option SalesQLHttpResponse) :
    SalesQLResult :=
  match response with
  | none =>
    { hasEmail := false, email := none, phone := none
      emailType := none, emailStatus := none }
  | some r =>
    match enrichTryBlock now r with
    | .ok v => v
    | .error _ =>
      { hasEmail := false, email := none, phone := none
        emailType := none, emailStatus := none }

/-! ### Enrich-and-create stage (enrich-and-create.ts, lines 129-378) -/

/-- One profile object of `state.currentSearchResults` (the field the
enrichment loop branches on). -/
structure ProfileHit where
  profileUrl : String
  deriving Repr, DecidableEq

/-- The state fields read by `enrichAndCreateCandidates`. -/
structure EnrichState where
  candidatesWithEmails : Nat
  maxCandidates : Nat
  currentSearchResults : List ProfileHit
  enrichedUrls : Finset String

/-- The environment of one `enrichAndCreateCandidates` invocation:
the `linkedInCandidate.count` resync value, whether `SALESQL_API_KEY`
is configured, the per-URL existing-candidate lookup (`none` = no row;
`some hc` = a row with `hasContactInfo = hc`), the enrichment call as
the loop observes it (a result, or a thrown `RateLimitError`), and
whether the `linkedInCandidate.create` call throws for a URL. -/
structure EnrichEnv where
  dbContactCount : Nat
  apiKeyPresent : Bool
  existing : String → Option Bool
  enrich : String → Except RateLimitMeta SalesQLResult
  createFails : String → Bool

/-- Mutable locals of the per-profile loop. -/
structure EnrichLoopState where
  foundWithEmail : Nat
  created : Nat
  skipped : Nat
  discarded : Nat
  newlyEnrichedUrls : Finset String

instance : DecidableEq EnrichLoopState := fun a b =>
  decidable_of_iff
    (a.foundWithEmail = b.foundWithEmail ∧ a.created = b.created ∧
      a.skipped = b.skipped ∧ a.discarded = b.discarded ∧
      a.newlyEnrichedUrls = b.newlyEnrichedUrls)
    (by cases a; cases b; simp)

/-- The per-profile loop of STEP 5: break once the target is reached,
skip URLs already enriched (state) or already stored (DB; counting a
contact-bearing row), otherwise call the enrichment provider; a thrown
`RateLimitError` aborts the loop (`Except.error` with the loop state at
the throw and the metadata), a no-email result discards the URL, an
email result creates a candidate row unless the insert throws. -/
def enrichLoop (st : EnrichState) (env : EnrichEnv) :
    List ProfileHit → EnrichLoopState →
    Except (EnrichLoopState × RateLimitMeta) EnrichLoopState
  | [], acc => .ok acc
  | p :: rest, acc =>
    if acc.foundWithEmail ≥ st.maxCandidates then
      .ok acc
    else if p.profileUrl ∈ st.enrichedUrls then
      enrichLoop st env rest { acc with skipped := acc.skipped + 1 }
    else
      match env.existing p.profileUrl with
      | some hasContact =>
        enrichLoop st env rest
          { acc with
            skipped := acc.skipped + 1
            foundWithEmail := if hasContact then acc.foundWithEmail + 1 else acc.foundWithEmail
            newlyEnrichedUrls := insert p.profileUrl acc.newlyEnrichedUrls }
      | none =>
        match env.enrich p.profileUrl with
        | .error meta =>
          .error (acc, meta)
        | .ok result =>
          let acc := { acc with newlyEnrichedUrls := insert p.profileUrl acc.newlyEnrichedUrls }
          if result.hasEmail then
            if env.createFails p.profileUrl then
              enrichLoop st env rest acc
            else
              enrichLoop st env rest
                { acc with
                  created := acc.created + 1
                  foundWithEmail := acc.foundWithEmail + 1 }
          else
            enrichLoop st env rest { acc with discarded := acc.discarded + 1 }

/-- The `sourcingJob.update` payload fields the enrichment stage writes
(`none` = field absent from the update, i.e. left unchanged). -/
structure EnrichJobWrite where
  enrichedUrls : Option (Finset String)
  totalProfilesFound : Option Nat
  status : Option String
  currentStage : Option String
  lastCompletedStage : Option String
  errorMessage : Option String
  rateLimitResetAt : Option Nat
  rateLimitService : Option String
  deriving DecidableEq

/-- The partial state update `enrichAndCreateCandidates` returns
(`enrichedUrls = none` models the key being absent from the returned
object). -/
structure EnrichUpdate where
  candidatesWithEmails : Option Nat
  enrichedUrls : Option (Finset String)
  currentSearchResults : Option (List ProfileHit)
  currentStage : String
  deriving DecidableEq

/-- Result of one `enrichAndCreateCandidates` invocation: the returned
partial state update plus the issued job-row write. -/
structure EnrichResult where
  update : EnrichUpdate
  dbWrite : Option EnrichJobWrite
  deriving DecidableEq

/-- STEP 1 of `enrichAndCreateCandidates`: take the count from state,
falling back to the database recount when the state count is zero. -/
def enrichStartCount (st : EnrichState) (env : EnrichEnv) : Nat :=
  if st.candidatesWithEmails = 0 then env.dbContactCount else st.candidatesWithEmails

/-- Initial values of the loop locals of STEP 5. -/
def enrichLoopStart (st : EnrichState) (env : EnrichEnv) : EnrichLoopState :=
  { foundWithEmail := enrichStartCount st env, created := 0, skipped := 0
    discarded := 0, newlyEnrichedUrls := ∅ }

/-- `enrichAndCreateCandidates(state)`: resync the count, short-circuit
when the target is already reached, fail when the API key is missing,
run the per-profile loop, and checkpoint.  On a `RateLimitError`
escaping the loop, the union of previously and newly enriched URLs is
persisted together with the reset metadata and status RATE_LIMITED; on
normal completion the checkpoint writes `totalProfilesFound` and
`lastCompletedStage` only when the target was reached. -/
def enrichAndCreateCandidates (st : EnrichState) (env : EnrichEnv) : EnrichResult :=
  let foundWithEmail := enrichStartCount st env
  if foundWithEmail ≥ st.maxCandidates then
    { update :=
        { candidatesWithEmails := some foundWithEmail
          enrichedUrls := none
          currentSearchResults := some []
          currentStage := "ENRICHMENT_COMPLETE" }
      dbWrite := some
        { enrichedUrls := none
          totalProfilesFound := some foundWithEmail
          status := some "PROFILES_FOUND"
          currentStage := some "ENRICHMENT_COMPLETE"
          lastCompletedStage := some "enrich_and_create"
          errorMessage := none, rateLimitResetAt := none, rateLimitService := none } }
  else if ¬ env.apiKeyPresent then
    { update :=
        { candidatesWithEmails := none
          enrichedUrls := none
          currentSearchResults := none
          currentStage := "ENRICHMENT_FAILED" }
      dbWrite := some
        { enrichedUrls := none
          totalProfilesFound := none
          status := some "FAILED"
          currentStage := none
          lastCompletedStage := none
          errorMessage := some "SalesQL API key not configured"
          rateLimitResetAt := none, rateLimitService := none } }
  else
    match enrichLoop st env st.currentSearchResults (enrichLoopStart st env) with
    | .error (acc, meta) =>
      let allEnrichedUrls := st.enrichedUrls ∪ acc.newlyEnrichedUrls
      { update :=
          { candidatesWithEmails := some acc.foundWithEmail
            enrichedUrls := some allEnrichedUrls
            currentSearchResults := some []
            currentStage := "RATE_LIMITED" }
        dbWrite := some
          { enrichedUrls := some allEnrichedUrls
            totalProfilesFound := none
            status := some "RATE_LIMITED"
            currentStage := some s!"ENRICHING_{acc.foundWithEmail}_OF_{st.maxCandidates}"
            lastCompletedStage := none
            errorMessage := some meta.message
            rateLimitResetAt := some meta.resetAt
            rateLimitService := some meta.type } }
    | .ok acc =>
      let allEnrichedUrls := st.enrichedUrls ∪ acc.newlyEnrichedUrls
      let reachedTarget := acc.foundWithEmail ≥ st.maxCandidates
      { update :=
          { candidatesWithEmails := some acc.foundWithEmail
            enrichedUrls := some allEnrichedUrls
            currentSearchResults := some []
            currentStage :=
              if reachedTarget then "ENRICHMENT_COMPLETE" else "NEED_MORE_CANDIDATES" }
        dbWrite := some
          { enrichedUrls := some allEnrichedUrls
            totalProfilesFound := some (if reachedTarget then acc.foundWithEmail else 0)
            status := some (if reachedTarget then "PROFILES_FOUND" else "SEARCHING_PROFILES")
            currentStage := some
              (if reachedTarget then "ENRICHMENT_COMPLETE"
               else s!"ENRICHING_{acc.foundWithEmail}_OF_{st.maxCandidates}")
            lastCompletedStage :=
              if reachedTarget then some "enrich_and_create" else none
            errorMessage := none, rateLimitResetAt := none, rateLimitService := none } }

/-! ### Search-profiles stage (search-profiles.ts, lines 52-330) -/

/-- Outcome of one `searchLinkedInProfiles` call as `searchProfiles`
observes it: a result list, a thrown `RateLimitError`, or another
thrown error. -/
inductive SearchOutcome where
  | results (profiles : List ProfileHit)
  | rateLimited (meta : RateLimitMeta)
  | failure (message : String)

/-- The state fields `searchProfiles` reads. -/
structure SearchState where
  candidatesWithEmails : Nat
  maxCandidates : Nat
  currentSearchResults : List ProfileHit
  discoveredUrls : Finset String
  usedQueryIndices : Finset Nat
  searchIterations : Nat
  searchQueries : List SearchQuery

/-- The database rows `searchProfiles` consults: the contact-bearing
candidate count, and the job row's `discoveredUrls` /
`usedQueryIndices` JSON columns (`none` = NULL). -/
structure SearchDb where
  dbContactCount : Nat
  discoveredUrls : Option (Finset String)
  usedQueryIndices : Option (Finset Nat)

/-- The `sourcingJob.update` payload fields `searchProfiles` writes
(`none` = absent). -/
structure SearchJobWrite where
  discoveredUrls : Option (Finset String)
  usedQueryIndices : Option (Finset Nat)
  status : Option String
  currentStage : Option String
  lastCompletedStage : Option String
  errorMessage : Option String
  rateLimitResetAt : Option Nat
  rateLimitService : Option String
  deriving DecidableEq

/-- The partial state update `searchProfiles` returns
(`usedQueryIndices = none` models the key being absent). -/
structure SearchUpdate where
  currentSearchResults : List ProfileHit
  discoveredUrls : Finset String
  usedQueryIndices : Option (Finset Nat)
  searchIterations : Nat
  candidatesWithEmails : Nat
  currentStage : String
  deriving DecidableEq

/-- Result of one `searchProfiles` invocation, with the sequence of
queries actually submitted to the search provider as an observable
trace. -/
structure SearchResult where
  update : SearchUpdate
  dbWrite : Option SearchJobWrite
  executedQueries : List SearchQuery

/-- STEP 1: current count from state, or the DB recount when zero. -/
def searchStartCount (st : SearchState) (db : SearchDb) : Nat :=
  if st.candidatesWithEmails = 0 then db.dbContactCount else st.candidatesWithEmails

/-- STEP 3 restore: when either tracking set is empty in state, reload
both from the job row (each only if the column holds an array). -/
def restoredDiscovered (st : SearchState) (db : SearchDb) : Finset String :=
  if st.discoveredUrls = ∅ ∨ st.usedQueryIndices = ∅ then
    match db.discoveredUrls with
    | some s => s
    | none => st.discoveredUrls
  else st.discoveredUrls

/-- `Math.ceil(remaining * 2)` where `remaining = maxCandidates -
currentCount` (an integer, so the ceiling is the identity). -/
def searchTargetOf (st : SearchState) (db : SearchDb) : Nat :=
  (st.maxCandidates - searchStartCount st db) * 2

/-- STEP 3 restore for `usedQueryIndices`. -/
def restoredUsed (st : SearchState) (db : SearchDb) : Finset Nat :=
  if st.discoveredUrls = ∅ ∨ st.usedQueryIndices = ∅ then
    match db.usedQueryIndices with
    | some s => s
    | none => st.usedQueryIndices
  else st.usedQueryIndices

/-- `results.filter(p => p.profileUrl && !discoveredUrls.has(p.profileUrl))`. -/
def newProfilesOf (discovered : Finset String) (results : List ProfileHit) :
    List ProfileHit :=
  results.filter fun p => p.profileUrl ≠ "" ∧ p.profileUrl ∉ discovered

def MIN_RESULTS_THRESHOLD : Nat := 5
def MAX_QUERIES_PER_ITERATION : Nat := 2

/-- The locals of STEP 5/6 after the primary query succeeded and the
fallback logic ran. -/
structure FallbackOut where
  foundProfiles : List ProfileHit
  discoveredUrls : Finset String
  usedQueryIndices : Finset Nat
  executed : List SearchQuery

/-- STEP 6 of `searchProfiles`: when the primary query produced fewer
than `MIN_RESULTS_THRESHOLD` new profiles (and only one query ran so
far, which is always the case here), select one more query preferring
the primary's tier and execute it, swallowing its errors. -/
def runFallback (queries : List SearchQuery) (searchTarget : Nat)
    (primary : SearchQuery) (oracle : SearchQuery → SearchOutcome)
    (newProfiles : List ProfileHit) (discovered : Finset String)
    (used : Finset Nat) (adjusted : SearchQuery) : FallbackOut :=
  if newProfiles.length < MIN_RESULTS_THRESHOLD then
    match selectNextQueryByTier queries used (some primary.tier) with
    | none => ⟨newProfiles, discovered, used, [adjusted]⟩
    | some fallbackQuery =>
      let fallbackAdjusted := { fallbackQuery with maxItems := searchTarget }
      match oracle fallbackAdjusted with
      | .results fallbackResults =>
        let newFallbackProfiles := newProfilesOf discovered fallbackResults
        ⟨newProfiles ++ newFallbackProfiles,
         discovered ∪ (newFallbackProfiles.map ProfileHit.profileUrl).toFinset,
         insert fallbackQuery.queryId used,
         [adjusted, fallbackAdjusted]⟩
      | _ =>
        -- fallback errors are caught and swallowed ("continue with what we have")
        ⟨newProfiles, discovered, used, [adjusted, fallbackAdjusted]⟩
  else ⟨newProfiles, discovered, used, [adjusted]⟩

/-- `searchProfiles(state)`, driven by the provider oracle.  Mirrors
the source: target short-circuit, pending-URL short-circuit, restore
from DB, tier-based primary selection, primary execution with the
same-tier fallback when fewer than `MIN_RESULTS_THRESHOLD` new URLs
arrive (fallback errors swallowed), rate-limit and generic-error exits,
and the final checkpoint. -/
def searchProfiles (st : SearchState) (db : SearchDb)
    (oracle : SearchQuery → SearchOutcome) : SearchResult :=
  let currentCount := searchStartCount st db
  -- STEP 2: target already reached
  if st.maxCandidates ≤ currentCount then
    { update :=
        { currentSearchResults := []
          discoveredUrls := st.discoveredUrls
          usedQueryIndices := none
          searchIterations := st.searchIterations
          candidatesWithEmails := currentCount
          currentStage := "SEARCH_NOT_NEEDED" }
      dbWrite := none
      executedQueries := [] }
  -- STEP 2.5: pending URLs from a previous search
  else if st.currentSearchResults ≠ [] then
    let discoveredUrls :=
      if st.discoveredUrls = ∅ then
        match db.discoveredUrls with
        | some s => s
        | none => (∅ : Finset String)
      else st.discoveredUrls
    { update :=
        { currentSearchResults := st.currentSearchResults
          discoveredUrls := discoveredUrls
          usedQueryIndices := none
          searchIterations := st.searchIterations
          candidatesWithEmails := currentCount
          currentStage := "SEARCH_COMPLETE_PENDING_URLS" }
      dbWrite := none
      executedQueries := [] }
  else
    -- STEP 3: tracking sets (with DB restore)
    let discoveredUrls := restoredDiscovered st db
    let usedQueryIndices := restoredUsed st db
    let searchTarget := searchTargetOf st db
    -- STEP 4: tier-based selection
    match selectNextQueryByTier st.searchQueries usedQueryIndices none with
    | none =>
      { update :=
          { currentSearchResults := []
            discoveredUrls := discoveredUrls
            usedQueryIndices := some usedQueryIndices
            searchIterations := st.searchIterations + 1
            candidatesWithEmails := currentCount
            currentStage := "ALL_QUERIES_EXHAUSTED" }
        dbWrite := none
        executedQueries := [] }
    | some selectedQuery =>
      let adjustedQuery := { selectedQuery with maxItems := searchTarget }
      -- STEP 5: primary query
      match oracle adjustedQuery with
      | .rateLimited meta =>
        { update :=
            { currentSearchResults := []
              discoveredUrls := discoveredUrls
              usedQueryIndices := some usedQueryIndices
              searchIterations := st.searchIterations + 1
              candidatesWithEmails := currentCount
              currentStage := "RATE_LIMITED" }
          dbWrite := some
            { discoveredUrls := some discoveredUrls
              usedQueryIndices := some usedQueryIndices
              status := some "RATE_LIMITED"
              currentStage := none
              lastCompletedStage := none
              errorMessage := some meta.message
              rateLimitResetAt := some meta.resetAt
              rateLimitService := some meta.type }
          executedQueries := [adjustedQuery] }
      | .failure msg =>
        { update :=
            { currentSearchResults := []
              discoveredUrls := discoveredUrls
              usedQueryIndices := some usedQueryIndices
              searchIterations := st.searchIterations + 1
              candidatesWithEmails := currentCount
              currentStage := "SEARCH_FAILED" }
          dbWrite := some
            { discoveredUrls := some discoveredUrls
              usedQueryIndices := some usedQueryIndices
              status := none
              currentStage := none
              lastCompletedStage := none
              errorMessage := some s!"Search failed: {msg}"
              rateLimitResetAt := none, rateLimitService := none }
          executedQueries := [adjustedQuery] }
      | .results results =>
        let newProfiles := newProfilesOf discoveredUrls results
        let discoveredUrls :=
          discoveredUrls ∪ (newProfiles.map ProfileHit.profileUrl).toFinset
        let usedQueryIndices := insert selectedQuery.queryId usedQueryIndices
        -- STEP 6: same-tier fallback when the primary under-returns
        let fb := runFallback st.searchQueries searchTarget selectedQuery oracle
          newProfiles discoveredUrls usedQueryIndices adjustedQuery
        -- STEP 7: checkpoint
        { update :=
            { currentSearchResults := fb.foundProfiles
              discoveredUrls := fb.discoveredUrls
              usedQueryIndices := some fb.usedQueryIndices
              searchIterations := st.searchIterations + 1
              candidatesWithEmails := currentCount
              currentStage := "SEARCH_COMPLETE" }
          dbWrite := some
            { discoveredUrls := some fb.discoveredUrls
              usedQueryIndices := some fb.usedQueryIndices
              status := some "SEARCHING_PROFILES"
              currentStage := some s!"SEARCH_ITERATION_{st.searchIterations + 1}"
              lastCompletedStage := some "search_profiles"
              errorMessage := none
              rateLimitResetAt := none, rateLimitService := none }
          executedQueries := fb.executed }

/-! ### Handle-no-candidates stage (handle-no-candidates.ts) -/

/-- JavaScript whitespace for `String.prototype.trim` (the characters
that can occur in the report template). -/
def jsWhitespace (c : Char) : Bool :=
  c = ' ' ∨ c = '\n' ∨ c = '\t' ∨ c = '\r'

/-- JavaScript `s.trim()`: strip leading and trailing whitespace. -/
def jsTrim (s : String) : String :=
  ⟨((s.data.dropWhile jsWhitespace).reverse.dropWhile jsWhitespace).reverse⟩

/-- The fixed recommendation list of `handleNoCandidates`. -/
def noCandidateRecommendations : List String :=
  [ "Try broader location requirements",
    "Consider reducing years of experience needed",
    "Expand list of acceptable job titles",
    "Review required skills - may be too specific",
    "Consider alternative industries with transferable skills" ]

/-- `list.map((x, i) => `${i + 1}. ${f x}`).join('\n')`. -/
def numberedLines (f : α → String) (l : List α) : String :=
  String.intercalate "\n" (l.enum.map fun (i, x) => s!"{i + 1}. {f x}")

/-- The state fields `handleNoCandidates` reads. -/
structure NoCandidatesState where
  searchIterations : Nat
  searchQueries : List SearchQuery

/-- The diagnostic report template of `handleNoCandidates` (strategy
lines use `q.searchQuery || 'Title-based search'`), trimmed as in the
source. -/
def noCandidatesReport (st : NoCandidatesState) : String :=
  jsTrim
    ("\n# No Candidates Found\n\nAfter trying " ++ toString st.searchIterations ++
      " different search strategies, no suitable candidates were found.\n\n" ++
      "## Search Strategies Attempted:\n" ++
      numberedLines
        (fun q => q.type ++ ": " ++
          (if q.searchQuery = "" then "Title-based search" else q.searchQuery))
        st.searchQueries ++
      "\n\n## Recommendations:\n" ++
      numberedLines id noCandidateRecommendations ++
      "\n\n## Next Steps:\n" ++
      "- Review job requirements to ensure they're not overly restrictive\n" ++
      "- Consider manual LinkedIn search with the queries above\n" ++
      "- Adjust required skills or location preferences\n" ++
      "- Try again with modified criteria\n    ")

/-- The `sourcingJob.update` payload of `handleNoCandidates` (the
success path; the `catch` fallback only covers a failing DB write). -/
structure NoCandidatesJobWrite where
  status : String
  currentStage : String
  lastCompletedStage : String
  errorMessage : String
  totalProfilesFound : Nat
  profilesScraped : Nat
  profilesParsed : Nat
  profilesSaved : Nat
  profilesScored : Nat
  deriving DecidableEq

/-- `handleNoCandidates(state)`: mark the job COMPLETED with the
diagnostic report and zeroed counters. -/
def handleNoCandidates (st : NoCandidatesState) : NoCandidatesJobWrite :=
  { status := "COMPLETED"
    currentStage := "NO_CANDIDATES_FOUND"
    lastCompletedStage := "handle_no_candidates"
    errorMessage := noCandidatesReport st
    totalProfilesFound := 0
    profilesScraped := 0
    profilesParsed := 0
    profilesSaved := 0
    profilesScored := 0 }

/-! ### Recovery sweep (routes/cron recover-jobs) -/

def STUCK_THRESHOLD_MINUTES : Int := 10
def MAX_RETRIES : Nat := 3

/-- The statuses the stuck-job query matches. -/
def recoverableStatuses : List String :=
  [ "FORMATTING_JD", "JD_FORMATTED", "SEARCHING_PROFILES", "PROFILES_FOUND",
    "SCRAPING_PROFILES", "PARSING_PROFILES", "SAVING_PROFILES",
    "SCORING_PROFILES", "RATE_LIMITED" ]

/-- The job-row fields the recovery sweep reads (timestamps in
milliseconds; `rateLimitResetAt` is carried to show the query never
consults it). -/
structure SweepJobRow where
  id : Nat
  status : String
  currentStage : String
  retryCount : Nat
  lastActivityAt : Int
  rateLimitResetAt : Option Int
  deriving Repr, DecidableEq

/-- The `findMany` filter of the recover-jobs route: status in the
recoverable list, no activity since the staleness threshold, and
`retryCount < MAX_RETRIES`.  No condition mentions
`rateLimitResetAt`. -/
def isStuckSelected (now : Int) (j : SweepJobRow) : Bool :=
  j.status ∈ recoverableStatuses ∧
    j.lastActivityAt < now - STUCK_THRESHOLD_MINUTES * 60 * 1000 ∧
    j.retryCount < MAX_RETRIES

/-- What the sweep does to one selected job: the (dead) max-retries
branch marks it FAILED with the descriptive message; otherwise the
retry counter is bumped, status reset to CREATED and the workflow
re-invoked from the rebuilt state. -/
inductive SweepAction where
  | markFailed (errorMessage : String)
  | reinvoke (updated : SweepJobRow)
  deriving Repr, DecidableEq

/-- The per-job branch inside the recovery loop. -/
def sweepJobAction (j : SweepJobRow) : SweepAction :=
  if j.retryCount ≥ MAX_RETRIES then
    .markFailed
      s!"Job stuck - Failed after {MAX_RETRIES} automatic recovery attempts. Last stage: {j.currentStage}"
  else
    .reinvoke { j with status := "CREATED", currentStage := "AUTO_RECOVERY"
                       retryCount := j.retryCount + 1 }

/-- Sweep summary mirroring the route's `results` object, plus the ids
of the jobs whose workflow was re-invoked. -/
structure SweepResult where
  recovered : Nat
  maxRetriesReached : Nat
  reinvokedIds : List Nat
  deriving Repr, DecidableEq

/-- One run of the `recover-jobs` sweep over the job table. -/
def recoverJobsSweep (now : Int) (jobs : List SweepJobRow) : SweepResult :=
  let stuckJobs := jobs.filter (isStuckSelected now)
  stuckJobs.foldl
    (fun acc j =>
      match sweepJobAction j with
      | .markFailed _ => { acc with maxRetriesReached := acc.maxRetriesReached + 1 }
      | .reinvoke _ =>
        { acc with recovered := acc.recovered + 1
                   reinvokedIds := acc.reinvokedIds ++ [j.id] })
    { recovered := 0, maxRetriesReached := 0, reinvokedIds := [] }

/-! ### State reducer (state.ts) and cross-invocation set tracking -/

/-- The reducer of the `discoveredUrls` / `enrichedUrls` annotations in
`state.ts`: keep the current set when the node omitted the key, else
union the update into it. -/
def setUnionReducer {α : Type} [DecidableEq α]
    (current : Finset α) (update : Option (Finset α)) : Finset α :=
  match update with
  | none => current
  | some u => current ∪ u

/-- The reducer of `searchIterations` / `candidatesWithEmails` /
`currentStage` etc.: `update ?? current`. -/
def lastValueReducer {α : Type} (current : α) (update : Option α) : α :=
  match update with
  | none => current
  | some u => u

/-- The three monotonic sets of a job, in the in-memory workflow state
and in the job row's JSON columns. -/
structure SetsWorld where
  memDiscovered : Finset String
  memUsed : Finset Nat
  memEnriched : Finset String
  dbDiscovered : Option (Finset String)
  dbUsed : Option (Finset Nat)
  dbEnriched : Option (Finset String)
  deriving DecidableEq

/-- Reading a JSON set column as `buildResumeState` does:
`(job.column as T[]) || []`. -/
def dbSet {α : Type} [DecidableEq α] (column : Option (Finset α)) : Finset α :=
  column.getD ∅

/-- The write-through invariant the nodes maintain: each in-memory
tracking set equals the persisted copy (every mutation path persists
exactly the set it returns, and the job starts with empty state and
NULL columns). -/
def SetsInv (w : SetsWorld) : Prop :=
  w.memDiscovered = dbSet w.dbDiscovered ∧
    w.memUsed = dbSet w.dbUsed ∧
    w.memEnriched = dbSet w.dbEnriched

instance (w : SetsWorld) : Decidable (SetsInv w) :=
  inferInstanceAs (Decidable (_ = _ ∧ _ = _ ∧ _ = _))

/-- The non-set parameters of one `searchProfiles` invocation. -/
structure SearchCallParams where
  candidatesWithEmails : Nat
  maxCandidates : Nat
  currentSearchResults : List ProfileHit
  searchIterations : Nat
  searchQueries : List SearchQuery
  dbContactCount : Nat
  oracle : SearchQuery → SearchOutcome

/-- The non-set parameters of one `enrichAndCreateCandidates`
invocation. -/
structure EnrichCallParams where
  candidatesWithEmails : Nat
  maxCandidates : Nat
  currentSearchResults : List ProfileHit
  env : EnrichEnv

/-- One stage invocation touching the tracking sets: a search
iteration, an enrichment pass, or a crash-recovery rebuild of the
in-memory state from the job row (`buildResumeState`). -/
inductive StageCall where
  | search (p : SearchCallParams)
  | enrich (p : EnrichCallParams)
  | resume

/-- Effect of one stage invocation on the tracking sets: the node runs
on the in-memory sets, its returned partial update is merged through
the reducers of `state.ts` (`usedQueryIndices`, which has no annotation,
is carried as a plain last-value field), and its `sourcingJob.update`
payload is applied to the columns. -/
def stepCall (w : SetsWorld) : StageCall → SetsWorld
  | .search p =>
    let st : SearchState :=
      { candidatesWithEmails := p.candidatesWithEmails
        maxCandidates := p.maxCandidates
        currentSearchResults := p.currentSearchResults
        discoveredUrls := w.memDiscovered
        usedQueryIndices := w.memUsed
        searchIterations := p.searchIterations
        searchQueries := p.searchQueries }
    let db : SearchDb :=
      { dbContactCount := p.dbContactCount
        discoveredUrls := w.dbDiscovered
        usedQueryIndices := w.dbUsed }
    let r := searchProfiles st db p.oracle
    { memDiscovered := setUnionReducer w.memDiscovered (some r.update.discoveredUrls)
      memUsed := lastValueReducer w.memUsed r.update.usedQueryIndices
      memEnriched := w.memEnriched
      dbDiscovered :=
        match r.dbWrite with
        | some wr => wr.discoveredUrls.or w.dbDiscovered
        | none => w.dbDiscovered
      dbUsed :=
        match r.dbWrite with
        | some wr => wr.usedQueryIndices.or w.dbUsed
        | none => w.dbUsed
      dbEnriched := w.dbEnriched }
  | .enrich p =>
    let st : EnrichState :=
      { candidatesWithEmails := p.candidatesWithEmails
        maxCandidates := p.maxCandidates
        currentSearchResults := p.currentSearchResults
        enrichedUrls := w.memEnriched }
    let r := enrichAndCreateCandidates st p.env
    { w with
      memEnriched := setUnionReducer w.memEnriched r.update.enrichedUrls
      dbEnriched :=
        match r.dbWrite with
        | some wr => wr.enrichedUrls.or w.dbEnriched
        | none => w.dbEnriched }
  | .resume =>
    { w with
      memDiscovered := dbSet w.dbDiscovered
      memUsed := dbSet w.dbUsed
      memEnriched := dbSet w.dbEnriched }

/-- A sequence of stage invocations. -/
def runCalls (w : SetsWorld) (calls : List StageCall) : SetsWorld :=
  calls.foldl stepCall w

/-! ### Lemmas about tier-based selection -/

theorem mem_availableIn (queries : List SearchQuery) (used : Finset Nat)
    (t : Nat) (q : SearchQuery) :
    q ∈ availableIn queries used t ↔ q ∈ queries ∧ q.tier = t ∧ q.queryId ∉ used := by
  simp [availableIn, tierGroup, List.mem_filter, and_assoc]
  tauto

theorem availableIn_head_spec {queries : List SearchQuery} {used : Finset Nat}
    {t : Nat} {r : SearchQuery}
    (h : (availableIn queries used t).head? = some r) :
    r ∈ queries ∧ r.tier = t ∧ r.queryId ∉ used := by
  have hr : r ∈ availableIn queries used t := by
    cases hl : availableIn queries used t with
    | nil => rw [hl] at h; simp at h
    | cons a as =>
      rw [hl] at h
      simp only [List.head?_cons, Option.some.injEq] at h
      subst h; exact List.mem_cons_self a as
  exact (mem_availableIn queries used t r).mp hr

theorem availableIn_eq_nil_iff (queries : List SearchQuery) (used : Finset Nat)
    (t : Nat) :
    availableIn queries used t = [] ↔
      ∀ q ∈ queries, q.tier = t → q.queryId ∈ used := by
  simp only [availableIn, tierGroup]
  constructor
  · intro h q hq ht
    by_contra hu
    have := (List.filter_eq_nil_iff.mp h) q
      (List.mem_filter.mpr ⟨hq, by simpa using ht⟩)
    simp [hu] at this
  · intro h
    refine List.filter_eq_nil_iff.mpr ?_
    intro q hq
    have hq' := List.mem_filter.mp hq
    have ht : q.tier = t := by simpa using hq'.2
    simpa using h q hq'.1 ht

theorem availableIn_ne_nil_of_mem {queries : List SearchQuery} {used : Finset Nat}
    {q : SearchQuery} (hq : q ∈ queries) (ht : q.queryId ∉ used) :
    availableIn queries used q.tier ≠ [] := by
  intro hnil
  exact ht ((availableIn_eq_nil_iff queries used q.tier).mp hnil q hq rfl)

/-- Without a `preferTier`, the selection is the scan over the three
availability lists. -/
theorem selectNext_none_eq (queries : List SearchQuery) (used : Finset Nat) :
    selectNextQueryByTier queries used none =
      (match (availableIn queries used 1).head? with
       | some q => some q
       | none =>
         match (availableIn queries used 2).head? with
         | some q => some q
         | none => (availableIn queries used 3).head?) := rfl

/-- With a valid preferred tier that still has an unused query, the
selection returns the first unused query of that tier. -/
theorem selectNext_prefer_eq {queries : List SearchQuery} {used : Finset Nat}
    {t : Nat} (ht : t = 1 ∨ t = 2 ∨ t = 3)
    (hne : availableIn queries used t ≠ []) :
    selectNextQueryByTier queries used (some t) =
      (availableIn queries used t).head? := by
  obtain ⟨x, xs, hl⟩ := List.exists_cons_of_ne_nil hne
  simp [selectNextQueryByTier, ht, hl]

/-- C5: over any query plan (whose queries carry tiers 1–3, as every
plan built by `generateQueriesFromVariants` does) and any used set,
`selectNextQueryByTier` without a preferred tier never returns a
tier-2/3 query while an unused tier-1 query remains; its result is
always the first unused query of the lowest tier holding one; it
returns `none` only when every query is used; and when a preferred tier
with an unused query is supplied, it returns an unused query of that
tier. -/
theorem selectNextQueryByTier_tier_discipline
    (queries : List SearchQuery) (used : Finset Nat)
    (htier : ∀ q ∈ queries, q.tier = 1 ∨ q.tier = 2 ∨ q.tier = 3) :
    (∀ r, selectNextQueryByTier queries used none = some r →
        (∃ q ∈ queries, q.tier = 1 ∧ q.queryId ∉ used) → r.tier = 1) ∧
    (∀ r, selectNextQueryByTier queries used none = some r →
        r ∈ queries ∧ r.queryId ∉ used ∧
          (availableIn queries used r.tier).head? = some r ∧
          ∀ q ∈ queries, q.queryId ∉ used → r.tier ≤ q.tier) ∧
    (selectNextQueryByTier queries used none = none →
        ∀ q ∈ queries, q.queryId ∈ used) ∧
    (∀ t, (∃ q ∈ queries, q.tier = t ∧ q.queryId ∉ used) →
        ∃ r, selectNextQueryByTier queries used (some t) = some r ∧
          r ∈ queries ∧ r.tier = t ∧ r.queryId ∉ used) := by
  refine ⟨?_, ?_, ?_, ?_⟩
  · -- tier-1 priority
    rintro r hr ⟨q, hq, hqt, hqu⟩
    have hne : availableIn queries used 1 ≠ [] := by
      have := availableIn_ne_nil_of_mem hq hqu
      rwa [hqt] at this
    rw [selectNext_none_eq] at hr
    cases h1 : (availableIn queries used 1).head? with
    | none =>
      exact absurd (List.head?_eq_none_iff.mp h1) hne
    | some a =>
      rw [h1] at hr
      obtain rfl : a = r := by simpa using hr
      exact (availableIn_head_spec h1).2.1
  · -- full characterization of the tier scan
    intro r hr
    rw [selectNext_none_eq] at hr
    cases h1 : (availableIn queries used 1).head? with
    | some a =>
      rw [h1] at hr
      obtain rfl : a = r := by simpa using hr
      obtain ⟨hmem, ht1, hun⟩ := availableIn_head_spec h1
      refine ⟨hmem, hun, by rw [ht1]; exact h1, ?_⟩
      intro q hq _
      rw [ht1]
      rcases htier q hq with h | h | h <;> omega
    | none =>
      rw [h1] at hr
      have hnil1 := List.head?_eq_none_iff.mp h1
      cases h2 : (availableIn queries used 2).head? with
      | some a =>
        rw [h2] at hr
        obtain rfl : a = r := by simpa using hr
        obtain ⟨hmem, ht2, hun⟩ := availableIn_head_spec h2
        refine ⟨hmem, hun, by rw [ht2]; exact h2, ?_⟩
        intro q hq hqu
        have hq1 : q.tier ≠ 1 := by
          intro h
          exact hqu ((availableIn_eq_nil_iff queries used 1).mp hnil1 q hq h)
        rw [ht2]
        rcases htier q hq with h | h | h <;> omega
      | none =>
        rw [h2] at hr
        have hnil2 := List.head?_eq_none_iff.mp h2
        obtain ⟨hmem, ht3, hun⟩ := availableIn_head_spec hr
        refine ⟨hmem, hun, by rw [ht3]; exact hr, ?_⟩
        intro q hq hqu
        have hq1 : q.tier ≠ 1 := by
          intro h
          exact hqu ((availableIn_eq_nil_iff queries used 1).mp hnil1 q hq h)
        have hq2 : q.tier ≠ 2 := by
          intro h
          exact hqu ((availableIn_eq_nil_iff queries used 2).mp hnil2 q hq h)
        rw [ht3]
        rcases htier q hq with h | h | h <;> omega
  · -- exhaustion
    intro h q hq
    rw [selectNext_none_eq] at h
    cases h1 : (availableIn queries used 1).head? with
    | some a => rw [h1] at h; simp at h
    | none =>
      rw [h1] at h
      cases h2 : (availableIn queries used 2).head? with
      | some a => rw [h2] at h; simp at h
      | none =>
        rw [h2] at h
        have hnil1 := List.head?_eq_none_iff.mp h1
        have hnil2 := List.head?_eq_none_iff.mp h2
        have hnil3 := List.head?_eq_none_iff.mp h
        by_contra hqu
        rcases htier q hq with ht | ht | ht
        · exact hqu ((availableIn_eq_nil_iff queries used 1).mp hnil1 q hq ht)
        · exact hqu ((availableIn_eq_nil_iff queries used 2).mp hnil2 q hq ht)
        · exact hqu ((availableIn_eq_nil_iff queries used 3).mp hnil3 q hq ht)
  · -- preferred tier
    rintro t ⟨q, hq, hqt, hqu⟩
    have ht : t = 1 ∨ t = 2 ∨ t = 3 := by
      have := htier q hq
      rwa [hqt] at this
    have hne : availableIn queries used t ≠ [] := by
      have := availableIn_ne_nil_of_mem hq hqu
      rwa [hqt] at this
    rw [selectNext_prefer_eq ht hne]
    cases hh : (availableIn queries used t).head? with
    | none => exact absurd (List.head?_eq_none_iff.mp hh) hne
    | some a =>
      obtain ⟨hmem, hta, hun⟩ := availableIn_head_spec hh
      exact ⟨a, rfl, hmem, hta, hun⟩

/-- A three-variant plan used to instantiate the selection theorems. -/
def demoVariants : List Variant :=
  [ { searchQuery := "react AND node", currentJobTitles := ["Frontend Dev"],
      locations := ["Remote"], industryIds := [4], takePages := none },
    { searchQuery := "typescript AND aws", currentJobTitles := ["Fullstack Dev"],
      locations := ["Berlin"], industryIds := [6], takePages := none },
    { searchQuery := "javascript AND graphql", currentJobTitles := ["Web Engineer"],
      locations := ["NYC"], industryIds := [9], takePages := none } ]

/-- The 9-query tiered plan generated from `demoVariants`. -/
def demoPlan : List SearchQuery :=
  generateQueriesFromVariants demoVariants 50

/-- Witness for `selectNextQueryByTier_tier_discipline`: on the
9-query demo plan with the first two tier-1 queries used, preferring
tier 1 still yields an unused tier-1 query. -/
theorem selectNextQueryByTier_tier_discipline_witness :
    ∃ r, selectNextQueryByTier demoPlan {0, 3} (some 1) = some r ∧
      r ∈ demoPlan ∧ r.tier = 1 ∧ r.queryId ∉ ({0, 3} : Finset Nat) :=
  (selectNextQueryByTier_tier_discipline demoPlan {0, 3}
      (generateQueries_tier_valid demoVariants 50)).2.2.2 1 (by decide)

/-- C4: the conditional branch after `enrich_and_create` halts on
RATE_LIMITED, advances to scrape once the count reaches the target,
applies the 5-iteration ceiling (scrape on partial progress, the
no-candidates handler on none) and otherwise loops back to search. -/
theorem routeAfterEnrich_branching (s : BranchState) :
    (s.currentStage = "RATE_LIMITED" → routeAfterEnrich s = Route.stop) ∧
    (s.currentStage ≠ "RATE_LIMITED" →
      s.maxCandidates ≤ s.candidatesWithEmails → routeAfterEnrich s = Route.scrape) ∧
    (s.currentStage ≠ "RATE_LIMITED" →
      s.candidatesWithEmails < s.maxCandidates → 5 ≤ s.searchIterations →
      (0 < s.candidatesWithEmails → routeAfterEnrich s = Route.scrape) ∧
      (s.candidatesWithEmails = 0 → routeAfterEnrich s = Route.no_candidates)) ∧
    (s.currentStage ≠ "RATE_LIMITED" →
      s.candidatesWithEmails < s.maxCandidates → s.searchIterations < 5 →
      routeAfterEnrich s = Route.search_again) := by
  unfold routeAfterEnrich
  refine ⟨?_, ?_, ?_, ?_⟩
  · intro h; rw [if_pos h]
  · intro h hge; rw [if_neg h, if_pos hge]
  · intro h hlt hit
    rw [if_neg h, if_neg (by omega), if_pos hit]
    constructor
    · intro hpos; rw [if_pos hpos]
    · intro hzero; rw [if_neg (by omega)]
  · intro h hlt hit
    rw [if_neg h, if_neg (by omega), if_neg (by omega)]

/-- Witness for `routeAfterEnrich_branching`: five exhausted iterations
with zero candidates route to the no-candidates handler. -/
theorem routeAfterEnrich_branching_witness :
    routeAfterEnrich
      { currentStage := "NEED_MORE_CANDIDATES", candidatesWithEmails := 0
        maxCandidates := 10, searchIterations := 5 } = Route.no_candidates :=
  ((routeAfterEnrich_branching _).2.2.1 (by decide) (by decide) (by decide)).2 rfl

/-! ### Recovery-sweep theorems -/

/-- A RATE_LIMITED job whose reset time is still two hours away but
whose last activity is stale. -/
def rateLimitedJobRow : SweepJobRow :=
  { id := 17, status := "RATE_LIMITED", currentStage := "ENRICHING_4_OF_10"
    retryCount := 0, lastActivityAt := 0, rateLimitResetAt := some 7200000 }

/-- C2 counterexample: at sweep time 3 600 000 ms — strictly before the
job's recorded reset time 7 200 000 ms — the stuck-job query still
selects the RATE_LIMITED job and the sweep re-invokes its workflow. -/
theorem recoverJobsSweep_reinvokes_before_reset :
    rateLimitedJobRow.status = "RATE_LIMITED" ∧
    rateLimitedJobRow.rateLimitResetAt = some 7200000 ∧
    (3600000 : Int) < 7200000 ∧
    isStuckSelected 3600000 rateLimitedJobRow = true ∧
    (recoverJobsSweep 3600000 [rateLimitedJobRow]).reinvokedIds = [17] := by
  decide

/-- C2 (amended): the sweep re-invokes a RATE_LIMITED job exactly when
it has been inactive beyond the 10-minute staleness window with retries
left; the recorded reset time plays no part in the criterion (the row —
including `rateLimitResetAt` — is universally quantified). -/
theorem recoverJobsSweep_ratelimit_selection (now : Int) (j : SweepJobRow)
    (hstatus : j.status = "RATE_LIMITED") :
    (isStuckSelected now j = true ↔
      j.lastActivityAt < now - STUCK_THRESHOLD_MINUTES * 60 * 1000 ∧
        j.retryCount < MAX_RETRIES) ∧
    (isStuckSelected now j = true →
      (recoverJobsSweep now [j]).reinvokedIds = [j.id]) := by
  constructor
  · unfold isStuckSelected
    simp [hstatus, recoverableStatuses]
  · intro hsel
    have hretry : j.retryCount < MAX_RETRIES := by
      unfold isStuckSelected at hsel
      simp at hsel
      exact hsel.2.2
    unfold recoverJobsSweep
    simp [hsel, sweepJobAction, Nat.not_le.mpr hretry]

/-- Witness for `recoverJobsSweep_ratelimit_selection`: a stale
RATE_LIMITED job (reset time still a day away) is selected and
re-invoked. -/
theorem recoverJobsSweep_ratelimit_selection_witness :
    isStuckSelected 86400000
        { id := 18, status := "RATE_LIMITED", currentStage := "SEARCH_ITERATION_1"
          retryCount := 1, lastActivityAt := 60000
          rateLimitResetAt := some 172800000 } = true ∧
      (recoverJobsSweep 86400000
          [{ id := 18, status := "RATE_LIMITED", currentStage := "SEARCH_ITERATION_1"
             retryCount := 1, lastActivityAt := 60000
             rateLimitResetAt := some 172800000 }]).reinvokedIds = [18] := by
  have h := recoverJobsSweep_ratelimit_selection 86400000
    { id := 18, status := "RATE_LIMITED", currentStage := "SEARCH_ITERATION_1"
      retryCount := 1, lastActivityAt := 60000
      rateLimitResetAt := some 172800000 } rfl
  have hsel := h.1.mpr (by decide)
  exact ⟨hsel, h.2 hsel⟩

/-- A job stuck mid-search whose retry counter has reached the ceiling
of 3. -/
def exhaustedJobRow : SweepJobRow :=
  { id := 21, status := "SEARCHING_PROFILES", currentStage := "SEARCH_ITERATION_2"
    retryCount := 3, lastActivityAt := 0, rateLimitResetAt := none }

/-- C3: a stuck job whose `retryCount` has reached the ceiling of 3 is
excluded by the stuck-job query (`retryCount < MAX_RETRIES`), so no
sweep ever reaches the branch that would mark it FAILED: the job is
neither recovered nor failed, and `maxRetriesReached` is 0 on every
sweep over every job table. -/
theorem recoverJobsSweep_max_retries_branch_unreachable :
    exhaustedJobRow.retryCount = MAX_RETRIES ∧
    isStuckSelected 1000000000 exhaustedJobRow = false ∧
    (recoverJobsSweep 1000000000 [exhaustedJobRow]).recovered = 0 ∧
    (recoverJobsSweep 1000000000 [exhaustedJobRow]).reinvokedIds = [] ∧
    ∀ (now : Int) (jobs : List SweepJobRow),
      (recoverJobsSweep now jobs).maxRetriesReached = 0 := by
  refine ⟨by decide, by decide, by decide, by decide, ?_⟩
  intro now jobs
  unfold recoverJobsSweep
  have key : ∀ (l : List SweepJobRow) (acc : SweepResult),
      (∀ j ∈ l, j.retryCount < MAX_RETRIES) →
      (l.foldl
        (fun acc j =>
          match sweepJobAction j with
          | .markFailed _ => { acc with maxRetriesReached := acc.maxRetriesReached + 1 }
          | .reinvoke _ =>
            { acc with recovered := acc.recovered + 1
                       reinvokedIds := acc.reinvokedIds ++ [j.id] })
        acc).maxRetriesReached = acc.maxRetriesReached := by
    intro l
    induction l with
    | nil => intro acc _; rfl
    | cons j rest ih =>
      intro acc h
      have hj : ¬ MAX_RETRIES ≤ j.retryCount :=
        Nat.not_le.mpr (h j (List.mem_cons_self j rest))
      simp only [List.foldl_cons, sweepJobAction, ge_iff_le, hj, if_false]
      exact ih _ fun x hx => h x (List.mem_cons_of_mem j hx)
  refine key _ _ ?_
  intro j hj
  have := List.of_mem_filter hj
  unfold isStuckSelected at this
  simp at this
  exact this.2.2

/-! ### Enrichment theorems -/

instance {ε α : Type} [DecidableEq ε] [DecidableEq α] : DecidableEq (Except ε α) :=
  fun a b =>
    match a, b with
    | .ok x, .ok y =>
      if h : x = y then isTrue (by rw [h])
      else isFalse fun hc => h (Except.ok.inj hc)
    | .error x, .error y =>
      if h : x = y then isTrue (by rw [h])
      else isFalse fun hc => h (Except.error.inj hc)
    | .ok _, .error _ => isFalse fun hc => Except.noConfusion hc
    | .error _, .ok _ => isFalse fun hc => Except.noConfusion hc

/-- A SalesQL HTTP 429 response. -/
def resp429 : SalesQLHttpResponse :=
  { status := 429, resetHeader := some 1700000000, emails := [], phones := [] }

/-- The no-email `SalesQLResult`. -/
def noEmailResult : SalesQLResult :=
  { hasEmail := false, email := none, phone := none
    emailType := none, emailStatus := none }

/-- A pending-profile state of three URLs, none enriched yet. -/
def enrich429State : EnrichState :=
  { candidatesWithEmails := 0, maxCandidates := 10
    currentSearchResults := [⟨"p1"⟩, ⟨"p2"⟩, ⟨"p3"⟩]
    enrichedUrls := ∅ }

/-- An environment in which every SalesQL call gets HTTP 429, composed
through `enrichWithSalesQL` exactly as the loop calls it. -/
def enrich429Env : EnrichEnv :=
  { dbContactCount := 0, apiKeyPresent := true
    existing := fun _ => none
    enrich := fun _ => .ok (enrichWithSalesQL 0 (some resp429))
    createFails := fun _ => false }

/-- C1: the `try` body of `enrichWithSalesQL` does raise the Rate-Limit
Signal for HTTP 429, but the function's own blanket `catch` converts it
into a plain no-email result, so the loop never sees a `RateLimitError`
from enrichment: with every provider call answering 429, the stage
discards all three URLs as contact-less, finishes with status
SEARCHING_PROFILES / stage NEED_MORE_CANDIDATES, and never transitions
the job to RATE_LIMITED. -/
theorem enrich429_swallowed_no_rate_limit_transition :
    enrichTryBlock 0 resp429 =
      .error { type := "salesql", resetAt := 1700000000 * 1000
               message := "Email enrichment service limit reached. Will retry automatically." } ∧
    enrichWithSalesQL 0 (some resp429) = noEmailResult ∧
    enrichLoop enrich429State enrich429Env enrich429State.currentSearchResults
        (enrichLoopStart enrich429State enrich429Env) =
      .ok { foundWithEmail := 0, created := 0, skipped := 0, discarded := 3
            newlyEnrichedUrls := {"p1", "p2", "p3"} } ∧
    (enrichAndCreateCandidates enrich429State enrich429Env).update.currentStage =
      "NEED_MORE_CANDIDATES" ∧
    ((enrichAndCreateCandidates enrich429State enrich429Env).dbWrite.map
        fun w => w.status) = some (some "SEARCHING_PROFILES") ∧
    ((enrichAndCreateCandidates enrich429State enrich429Env).dbWrite.map
        fun w => w.rateLimitResetAt) = some none := by
  refine ⟨rfl, rfl, ?_, rfl, rfl, rfl⟩
  decide

/-- `foundWithEmail` of a loop outcome, whether it completed or was
aborted by a rate-limit throw. -/
def loopFound : Except (EnrichLoopState × RateLimitMeta) EnrichLoopState → Nat
  | .ok fin => fin.foundWithEmail
  | .error (fin, _) => fin.foundWithEmail

/-- The per-profile loop never pushes the running count past the
target: it breaks as soon as the count reaches `maxCandidates`. -/
theorem enrichLoop_found_le (st : EnrichState) (env : EnrichEnv) :
    ∀ (l : List ProfileHit) (acc : EnrichLoopState),
      acc.foundWithEmail ≤ st.maxCandidates →
      loopFound (enrichLoop st env l acc) ≤ st.maxCandidates := by
  intro l
  induction l with
  | nil => intro acc h; exact h
  | cons p rest ih =>
    intro acc h
    rw [enrichLoop]
    by_cases hge : acc.foundWithEmail ≥ st.maxCandidates
    · rw [if_pos hge]; exact h
    rw [if_neg hge]
    have hlt : acc.foundWithEmail < st.maxCandidates := lt_of_not_ge hge
    by_cases hmem : p.profileUrl ∈ st.enrichedUrls
    · rw [if_pos hmem]; exact ih _ h
    rw [if_neg hmem]
    cases hex : env.existing p.profileUrl with
    | some hasContact =>
      refine ih _ ?_
      cases hasContact
      · simpa using h
      · simpa using hlt
    | none =>
      cases henr : env.enrich p.profileUrl with
      | error meta => exact h
      | ok result =>
        dsimp only
        by_cases hmail : result.hasEmail
        · rw [if_pos hmail]
          by_cases hcf : env.createFails p.profileUrl
          · rw [if_pos hcf]; exact ih _ h
          · rw [if_neg hcf]
            exact ih _ (by simpa using hlt)
        · rw [if_neg hmail]
          exact ih _ h

/-- Scenario A's 12 discovered URLs. -/
def scenarioAState : EnrichState :=
  { candidatesWithEmails := 0, maxCandidates := 10
    currentSearchResults :=
      [⟨"a1"⟩, ⟨"a2"⟩, ⟨"a3"⟩, ⟨"a4"⟩, ⟨"a5"⟩, ⟨"a6"⟩,
       ⟨"a7"⟩, ⟨"a8"⟩, ⟨"a9"⟩, ⟨"a10"⟩, ⟨"a11"⟩, ⟨"a12"⟩]
    enrichedUrls := ∅ }

/-- Scenario A's provider: contact info for 11 of the 12 URLs (all but
`a12`). -/
def scenarioAEnv : EnrichEnv :=
  { dbContactCount := 0, apiKeyPresent := true
    existing := fun _ => none
    enrich := fun url =>
      .ok (if url = "a12" then noEmailResult
           else { hasEmail := true, email := some (url ++ "@mail.com")
                  phone := none, emailType := some "Direct"
                  emailStatus := some "Valid" })
    createFails := fun _ => false }

/-- C8 counterexample: with `maxCandidates = 10`, 12 fresh URLs of
which the provider can enrich 11, the per-profile loop breaks once the
count reaches 10, so the stage completes with
`candidatesWithEmails = 10` — not 11 as the claim states. -/
theorem scenarioA_count_is_truncated_at_target :
    (scenarioAState.currentSearchResults.filter fun p =>
        match scenarioAEnv.enrich p.profileUrl with
        | .ok r => r.hasEmail
        | .error _ => false).length = 11 ∧
    (enrichAndCreateCandidates scenarioAState scenarioAEnv).update.candidatesWithEmails ≠
      some 11 ∧
    (enrichAndCreateCandidates scenarioAState scenarioAEnv).update.candidatesWithEmails =
      some 10 := by
  refine ⟨by decide, ?_, by decide⟩
  decide

/-- C8 (amended): the enrichment pass stops at the target: Scenario A
completes with `candidatesWithEmails = 10 = maxCandidates`, the stage
reports ENRICHMENT_COMPLETE so the branch advances to Scrape, and in
general a pass that starts at or below the target never ends above it. -/
theorem scenarioA_stops_at_target :
    (enrichAndCreateCandidates scenarioAState scenarioAEnv).update.candidatesWithEmails =
      some 10 ∧
    (enrichAndCreateCandidates scenarioAState scenarioAEnv).update.currentStage =
      "ENRICHMENT_COMPLETE" ∧
    routeAfterEnrich
      { currentStage :=
          (enrichAndCreateCandidates scenarioAState scenarioAEnv).update.currentStage
        candidatesWithEmails := 10, maxCandidates := 10, searchIterations := 1 } =
      Route.scrape ∧
    ∀ (st : EnrichState) (env : EnrichEnv) (l : List ProfileHit)
      (acc : EnrichLoopState),
      acc.foundWithEmail ≤ st.maxCandidates →
      loopFound (enrichLoop st env l acc) ≤ st.maxCandidates := by
  exact ⟨by decide, by decide, by decide, fun st env => enrichLoop_found_le st env⟩

/-- Witness for `scenarioA_stops_at_target`: the capping clause applied
to a concrete in-flight loop state. -/
theorem scenarioA_stops_at_target_witness :
    loopFound
        (enrichLoop scenarioAState scenarioAEnv [⟨"a7"⟩, ⟨"a8"⟩]
          { foundWithEmail := 9, created := 9, skipped := 0, discarded := 0
            newlyEnrichedUrls := ∅ }) ≤ scenarioAState.maxCandidates :=
  scenarioA_stops_at_target.2.2.2 scenarioAState scenarioAEnv [⟨"a7"⟩, ⟨"a8"⟩]
    { foundWithEmail := 9, created := 9, skipped := 0, discarded := 0
      newlyEnrichedUrls := ∅ } (by decide)

/-- C10: the final checkpoint of an enrichment pass that completes its
loop normally writes `totalProfilesFound = 0` and omits
`lastCompletedStage` whenever the final count is still below the
target — however many candidate rows the pass created — and writes the
actual count with `lastCompletedStage = "enrich_and_create"` exactly
when the target was reached. -/
theorem enrich_checkpoint_holds_back_totals (st : EnrichState) (env : EnrichEnv)
    (fin : EnrichLoopState)
    (hkey : env.apiKeyPresent = true)
    (hstart : enrichStartCount st env < st.maxCandidates)
    (hloop : enrichLoop st env st.currentSearchResults (enrichLoopStart st env) =
      .ok fin) :
    (fin.foundWithEmail < st.maxCandidates →
      (enrichAndCreateCandidates st env).dbWrite = some
        { enrichedUrls := some (st.enrichedUrls ∪ fin.newlyEnrichedUrls)
          totalProfilesFound := some 0
          status := some "SEARCHING_PROFILES"
          currentStage := some s!"ENRICHING_{fin.foundWithEmail}_OF_{st.maxCandidates}"
          lastCompletedStage := none
          errorMessage := none, rateLimitResetAt := none, rateLimitService := none } ∧
      (enrichAndCreateCandidates st env).update.currentStage = "NEED_MORE_CANDIDATES") ∧
    (st.maxCandidates ≤ fin.foundWithEmail →
      (enrichAndCreateCandidates st env).dbWrite = some
        { enrichedUrls := some (st.enrichedUrls ∪ fin.newlyEnrichedUrls)
          totalProfilesFound := some fin.foundWithEmail
          status := some "PROFILES_FOUND"
          currentStage := some "ENRICHMENT_COMPLETE"
          lastCompletedStage := some "enrich_and_create"
          errorMessage := none, rateLimitResetAt := none, rateLimitService := none }) := by
  have hne : ¬ enrichStartCount st env ≥ st.maxCandidates := not_le.mpr hstart
  constructor
  · intro hbelow
    have hnr : ¬ fin.foundWithEmail ≥ st.maxCandidates := not_le.mpr hbelow
    unfold enrichAndCreateCandidates
    rw [if_neg hne, if_neg (by simp [hkey]), hloop]
    simp [hnr]
  · intro hreached
    unfold enrichAndCreateCandidates
    rw [if_neg hne, if_neg (by simp [hkey]), hloop]
    simp [hreached]

/-- A three-URL pass against a target of 5 in which two candidate rows
with contact info get created. -/
def partialPassState : EnrichState :=
  { candidatesWithEmails := 0, maxCandidates := 5
    currentSearchResults := [⟨"b1"⟩, ⟨"b2"⟩, ⟨"b3"⟩]
    enrichedUrls := ∅ }

def partialPassEnv : EnrichEnv :=
  { dbContactCount := 0, apiKeyPresent := true
    existing := fun _ => none
    enrich := fun url =>
      .ok (if url = "b3" then noEmailResult
           else { hasEmail := true, email := some (url ++ "@mail.com")
                  phone := none, emailType := some "Direct"
                  emailStatus := some "Valid" })
    createFails := fun _ => false }

/-- Witness for `enrich_checkpoint_holds_back_totals`: a pass creating
2 contact-bearing rows against a target of 5 checkpoints
`totalProfilesFound = 0` and leaves `lastCompletedStage` untouched. -/
theorem enrich_checkpoint_holds_back_totals_witness :
    (enrichAndCreateCandidates partialPassState partialPassEnv).dbWrite = some
      { enrichedUrls := some (partialPassState.enrichedUrls ∪
          {"b1", "b2", "b3"})
        totalProfilesFound := some 0
        status := some "SEARCHING_PROFILES"
        currentStage := some "ENRICHING_2_OF_5"
        lastCompletedStage := none
        errorMessage := none, rateLimitResetAt := none, rateLimitService := none } ∧
    (enrichAndCreateCandidates partialPassState partialPassEnv).update.currentStage =
      "NEED_MORE_CANDIDATES" :=
  (enrich_checkpoint_holds_back_totals partialPassState partialPassEnv
      { foundWithEmail := 2, created := 2, skipped := 0, discarded := 1
        newlyEnrichedUrls := {"b1", "b2", "b3"} }
      rfl (by decide) (by decide)).1 (by decide)

/-! ### No-candidates theorems -/

theorem mem_data_append_left {c : Char} {a : String} (b : String)
    (h : c ∈ a.data) : c ∈ (a ++ b).data :=
  List.mem_append_left _ h

theorem exists_not_mem_dropWhile {α : Type} (p : α → Bool) (l : List α)
    (h : ∃ c ∈ l, p c = false) : ∃ c ∈ l.dropWhile p, p c = false := by
  induction l with
  | nil => simp at h
  | cons a as ih =>
    by_cases hpa : p a
    · rw [List.dropWhile_cons_of_pos hpa]
      apply ih
      obtain ⟨c, hc, hpc⟩ := h
      rcases List.mem_cons.mp hc with rfl | hmem
      · rw [hpa] at hpc; cases hpc
      · exact ⟨c, hmem, hpc⟩
    · rw [List.dropWhile_cons_of_neg hpa]
      exact h

/-- A string containing a non-whitespace character does not trim to the
empty string. -/
theorem jsTrim_ne_empty {s : String}
    (h : ∃ c ∈ s.data, jsWhitespace c = false) : jsTrim s ≠ "" := by
  unfold jsTrim
  intro hcon
  have hdata : ((s.data.dropWhile jsWhitespace).reverse.dropWhile jsWhitespace).reverse
      = [] := congrArg String.data hcon
  rw [List.reverse_eq_nil_iff] at hdata
  obtain ⟨c, hc, hpc⟩ := exists_not_mem_dropWhile jsWhitespace s.data h
  have hca : ∀ x ∈ (s.data.dropWhile jsWhitespace).reverse, jsWhitespace x = true :=
    List.dropWhile_eq_nil_iff.mp hdata
  have := hca c (List.mem_reverse.mpr hc)
  rw [hpc] at this
  cases this

/-- C9: once the search loop has burned its 5 iterations with zero
enriched contacts (and a positive target), the branch routes to
`handle_no_candidates`, which marks the job COMPLETED — not FAILED —
with `totalProfilesFound = 0`, every progress counter 0, and a
non-empty diagnostic report in `errorMessage`. -/
theorem noCandidates_completed_with_report (b : BranchState)
    (st : NoCandidatesState)
    (hstage : b.currentStage ≠ "RATE_LIMITED")
    (hzero : b.candidatesWithEmails = 0)
    (hmax : 0 < b.maxCandidates)
    (hiter : 5 ≤ b.searchIterations) :
    routeAfterEnrich b = Route.no_candidates ∧
    (handleNoCandidates st).status = "COMPLETED" ∧
    (handleNoCandidates st).status ≠ "FAILED" ∧
    (handleNoCandidates st).currentStage = "NO_CANDIDATES_FOUND" ∧
    (handleNoCandidates st).totalProfilesFound = 0 ∧
    (handleNoCandidates st).profilesScraped = 0 ∧
    (handleNoCandidates st).profilesParsed = 0 ∧
    (handleNoCandidates st).profilesSaved = 0 ∧
    (handleNoCandidates st).profilesScored = 0 ∧
    (handleNoCandidates st).errorMessage ≠ "" := by
  refine ⟨?_, rfl, by simp [handleNoCandidates], rfl, rfl, rfl, rfl, rfl, rfl, ?_⟩
  · unfold routeAfterEnrich
    rw [if_neg hstage, if_neg (by omega), if_pos hiter, if_neg (by omega)]
  · show noCandidatesReport st ≠ ""
    unfold noCandidatesReport
    apply jsTrim_ne_empty
    refine ⟨'#', ?_, by decide⟩
    repeat apply mem_data_append_left
    decide

/-- Witness for `noCandidates_completed_with_report`: the exhausted
9-query demo plan after 5 fruitless iterations. -/
theorem noCandidates_completed_with_report_witness :
    routeAfterEnrich
        { currentStage := "ALL_QUERIES_EXHAUSTED", candidatesWithEmails := 0
          maxCandidates := 10, searchIterations := 5 } = Route.no_candidates ∧
      (handleNoCandidates { searchIterations := 5, searchQueries := demoPlan }).status =
        "COMPLETED" ∧
      (handleNoCandidates { searchIterations := 5, searchQueries := demoPlan }).status ≠
        "FAILED" ∧
      (handleNoCandidates
          { searchIterations := 5, searchQueries := demoPlan }).currentStage =
        "NO_CANDIDATES_FOUND" ∧
      (handleNoCandidates
          { searchIterations := 5, searchQueries := demoPlan }).totalProfilesFound = 0 ∧
      (handleNoCandidates
          { searchIterations := 5, searchQueries := demoPlan }).profilesScraped = 0 ∧
      (handleNoCandidates
          { searchIterations := 5, searchQueries := demoPlan }).profilesParsed = 0 ∧
      (handleNoCandidates
          { searchIterations := 5, searchQueries := demoPlan }).profilesSaved = 0 ∧
      (handleNoCandidates
          { searchIterations := 5, searchQueries := demoPlan }).profilesScored = 0 ∧
      (handleNoCandidates
          { searchIterations := 5, searchQueries := demoPlan }).errorMessage ≠ "" :=
  noCandidates_completed_with_report
    { currentStage := "ALL_QUERIES_EXHAUSTED", candidatesWithEmails := 0
      maxCandidates := 10, searchIterations := 5 }
    { searchIterations := 5, searchQueries := demoPlan }
    (by decide) rfl (by decide) (by decide)

/-! ### Search fallback theorems -/

/-- The fallback step never leaves more than two executed queries. -/
theorem runFallback_executed_le_two (queries : List SearchQuery)
    (searchTarget : Nat) (primary : SearchQuery)
    (oracle : SearchQuery → SearchOutcome) (newProfiles : List ProfileHit)
    (discovered : Finset String) (used : Finset Nat) (adjusted : SearchQuery) :
    (runFallback queries searchTarget primary oracle newProfiles discovered
        used adjusted).executed.length ≤ 2 := by
  unfold runFallback
  by_cases hfew : newProfiles.length < MIN_RESULTS_THRESHOLD
  · rw [if_pos hfew]
    cases selectNextQueryByTier queries used (some primary.tier) with
    | none => simp
    | some fallbackQuery =>
      dsimp only
      split <;> simp
  · rw [if_neg hfew]
    simp

/-- A one-query plan: the primary query can under-return with no
fallback left. -/
def loneQuery : SearchQuery :=
  { tier := 1, type := "precise", variant := 1, queryId := 0
    description := "Variant 1 - Precise (all filters)"
    searchQuery := "react", currentJobTitles := ["Frontend Dev"]
    industryIds := [], maxItems := 50, takePages := [1, 2, 3] }

def loneQueryState : SearchState :=
  { candidatesWithEmails := 0, maxCandidates := 10
    currentSearchResults := [], discoveredUrls := ∅, usedQueryIndices := ∅
    searchIterations := 0, searchQueries := [loneQuery] }

def emptySearchDb : SearchDb :=
  { dbContactCount := 0, discoveredUrls := none, usedQueryIndices := none }

/-- C6 counterexample: with a one-query plan, the primary query yields
only 2 new URLs (< 5), yet no additional query is executed — the
iteration runs exactly 1 query, not the "exactly one additional" the
claim asserts for every under-returning primary. -/
theorem fallback_skipped_when_queries_exhausted :
    (newProfilesOf ∅ [⟨"x1"⟩, ⟨"x2"⟩]).length < MIN_RESULTS_THRESHOLD ∧
    (searchProfiles loneQueryState emptySearchDb
        (fun _ => .results [⟨"x1"⟩, ⟨"x2"⟩])).executedQueries.length = 1 ∧
    ¬ (searchProfiles loneQueryState emptySearchDb
        (fun _ => .results [⟨"x1"⟩, ⟨"x2"⟩])).executedQueries.length = 2 := by
  refine ⟨by decide, ?_, by decide⟩
  decide

/-- C6 (amended): an iteration never executes more than 2 queries; and
when the primary query under-returns (< 5 new URLs), exactly one
additional query is selected — preferring the primary's tier — and
executed whenever an unused query remains, while no fallback runs when
the plan is exhausted.  A preferred tier that still has an unused query
is always honoured. -/
theorem searchProfiles_fallback_discipline (st : SearchState) (db : SearchDb)
    (oracle : SearchQuery → SearchOutcome) :
    (searchProfiles st db oracle).executedQueries.length ≤
      MAX_QUERIES_PER_ITERATION ∧
    (∀ p results,
      searchStartCount st db < st.maxCandidates →
      st.currentSearchResults = [] →
      selectNextQueryByTier st.searchQueries (restoredUsed st db) none = some p →
      oracle { p with maxItems := searchTargetOf st db } = .results results →
      (newProfilesOf (restoredDiscovered st db) results).length <
        MIN_RESULTS_THRESHOLD →
      (∀ f, selectNextQueryByTier st.searchQueries
          (insert p.queryId (restoredUsed st db)) (some p.tier) = some f →
        (searchProfiles st db oracle).executedQueries =
          [{ p with maxItems := searchTargetOf st db },
           { f with maxItems := searchTargetOf st db }]) ∧
      (selectNextQueryByTier st.searchQueries
          (insert p.queryId (restoredUsed st db)) (some p.tier) = none →
        (searchProfiles st db oracle).executedQueries =
          [{ p with maxItems := searchTargetOf st db }])) ∧
    (∀ (used : Finset Nat) (t : Nat) (f : SearchQuery),
      (t = 1 ∨ t = 2 ∨ t = 3) →
      (∃ q ∈ st.searchQueries, q.tier = t ∧ q.queryId ∉ used) →
      selectNextQueryByTier st.searchQueries used (some t) = some f →
      f.tier = t) := by
  refine ⟨?_, ?_, ?_⟩
  · -- cap: at most 2 provider calls per iteration
    unfold searchProfiles
    by_cases h1 : st.maxCandidates ≤ searchStartCount st db
    · rw [if_pos h1]; simp [MAX_QUERIES_PER_ITERATION]
    rw [if_neg h1]
    by_cases h2 : st.currentSearchResults ≠ []
    · rw [if_pos h2]; simp [MAX_QUERIES_PER_ITERATION]
    rw [if_neg h2]
    dsimp only
    split
    · simp [MAX_QUERIES_PER_ITERATION]
    · split
      · simp [MAX_QUERIES_PER_ITERATION]
      · simp [MAX_QUERIES_PER_ITERATION]
      · dsimp only
        exact runFallback_executed_le_two _ _ _ _ _ _ _ _
  · -- under-returning primary: fallback exactly when one is available
    intro p results hcount hpend hsel horacle hfew
    unfold searchProfiles
    rw [if_neg (not_le.mpr hcount)]
    rw [hpend]
    rw [if_neg (by simp)]
    dsimp only
    rw [hsel]
    dsimp only
    rw [horacle]
    dsimp only
    constructor
    · intro f hf
      show (runFallback st.searchQueries (searchTargetOf st db) p oracle _ _ _ _).executed = _
      unfold runFallback
      rw [if_pos hfew, hf]
      dsimp only
      split <;> rfl
    · intro hnone
      show (runFallback st.searchQueries (searchTargetOf st db) p oracle _ _ _ _).executed = _
      unfold runFallback
      rw [if_pos hfew, hnone]
  · -- preferred tier honoured
    intro used t f ht hex hf
    obtain ⟨q, hq, hqt, hqu⟩ := hex
    have hne : availableIn st.searchQueries used t ≠ [] := by
      have := availableIn_ne_nil_of_mem hq hqu
      rwa [hqt] at this
    rw [selectNext_prefer_eq ht hne] at hf
    exact (availableIn_head_spec hf).2.1

/-- The first tier-1 query of `demoPlan`. -/
def demoPrimary : SearchQuery :=
  { tier := 1, type := "precise", variant := 1, queryId := 0
    description := "Variant 1 - Precise (all filters)"
    searchQuery := "react AND node", currentJobTitles := ["Frontend Dev"]
    industryIds := [4], maxItems := 50, takePages := [1, 2, 3] }

/-- The tier-1 query of `demoPlan`'s second variant — the same-tier
fallback after `demoPrimary` is used. -/
def demoFallback : SearchQuery :=
  { tier := 1, type := "precise", variant := 2, queryId := 3
    description := "Variant 2 - Precise (all filters)"
    searchQuery := "typescript AND aws", currentJobTitles := ["Fullstack Dev"]
    industryIds := [6], maxItems := 50, takePages := [1, 2, 3] }

/-- Witness for `searchProfiles_fallback_discipline`: on the demo plan
an under-returning primary (1 new URL) triggers exactly one same-tier
fallback, so the iteration executes precisely those two queries. -/
theorem searchProfiles_fallback_discipline_witness :
    (searchProfiles
        { candidatesWithEmails := 0, maxCandidates := 10
          currentSearchResults := [], discoveredUrls := ∅
          usedQueryIndices := ∅, searchIterations := 0
          searchQueries := demoPlan }
        emptySearchDb (fun _ => .results [⟨"y1"⟩])).executedQueries =
      [{ demoPrimary with maxItems := 20 }, { demoFallback with maxItems := 20 }] :=
  ((searchProfiles_fallback_discipline
        { candidatesWithEmails := 0, maxCandidates := 10
          currentSearchResults := [], discoveredUrls := ∅
          usedQueryIndices := ∅, searchIterations := 0
          searchQueries := demoPlan }
        emptySearchDb (fun _ => .results [⟨"y1"⟩])).2.1 demoPrimary [⟨"y1"⟩]
      (by decide) rfl (by decide) rfl (by decide)).1 demoFallback (by decide)

/-! ### Monotonicity of the tracking sets -/

theorem restoredDiscovered_of_synced {st : SearchState} {db : SearchDb}
    (hd : st.discoveredUrls = dbSet db.discoveredUrls) :
    restoredDiscovered st db = st.discoveredUrls := by
  unfold restoredDiscovered
  split
  · cases hdb : db.discoveredUrls with
    | some s => rw [hd, hdb]; rfl
    | none => rfl
  · rfl

theorem restoredUsed_of_synced {st : SearchState} {db : SearchDb}
    (hu : st.usedQueryIndices = dbSet db.usedQueryIndices) :
    restoredUsed st db = st.usedQueryIndices := by
  unfold restoredUsed
  split
  · cases hdb : db.usedQueryIndices with
    | some s => rw [hu, hdb]; rfl
    | none => rfl
  · rfl

theorem runFallback_sets (queries : List SearchQuery) (searchTarget : Nat)
    (primary : SearchQuery) (oracle : SearchQuery → SearchOutcome)
    (newProfiles : List ProfileHit) (discovered : Finset String)
    (used : Finset Nat) (adjusted : SearchQuery) :
    discovered ⊆ (runFallback queries searchTarget primary oracle newProfiles
        discovered used adjusted).discoveredUrls ∧
    used ⊆ (runFallback queries searchTarget primary oracle newProfiles
        discovered used adjusted).usedQueryIndices := by
  unfold runFallback
  by_cases hfew : newProfiles.length < MIN_RESULTS_THRESHOLD
  · rw [if_pos hfew]
    cases selectNextQueryByTier queries used (some primary.tier) with
    | none => exact ⟨subset_rfl, subset_rfl⟩
    | some fallbackQuery =>
      dsimp only
      split
      · exact ⟨Finset.subset_union_left, Finset.subset_insert _ _⟩
      · exact ⟨subset_rfl, subset_rfl⟩
  · rw [if_neg hfew]
    exact ⟨subset_rfl, subset_rfl⟩

/-- Behaviour of one `searchProfiles` invocation on the tracking sets,
assuming the in-memory sets agree with the persisted columns at entry:
the returned sets only grow, and every issued write persists exactly
the returned sets. -/
theorem searchProfiles_sets_mono (st : SearchState) (db : SearchDb)
    (oracle : SearchQuery → SearchOutcome)
    (hd : st.discoveredUrls = dbSet db.discoveredUrls)
    (hu : st.usedQueryIndices = dbSet db.usedQueryIndices) :
    st.discoveredUrls ⊆ (searchProfiles st db oracle).update.discoveredUrls ∧
    (∀ u, (searchProfiles st db oracle).update.usedQueryIndices = some u →
      st.usedQueryIndices ⊆ u) ∧
    (match (searchProfiles st db oracle).dbWrite with
     | none =>
       (searchProfiles st db oracle).update.discoveredUrls = st.discoveredUrls ∧
       ((searchProfiles st db oracle).update.usedQueryIndices = none ∨
        (searchProfiles st db oracle).update.usedQueryIndices =
          some st.usedQueryIndices)
     | some wr =>
       wr.discoveredUrls = some (searchProfiles st db oracle).update.discoveredUrls ∧
       wr.usedQueryIndices = (searchProfiles st db oracle).update.usedQueryIndices) := by
  have hrd := restoredDiscovered_of_synced hd
  have hru := restoredUsed_of_synced hu
  unfold searchProfiles
  by_cases h1 : st.maxCandidates ≤ searchStartCount st db
  · rw [if_pos h1]
    exact ⟨subset_rfl, by simp, rfl, Or.inl rfl⟩
  rw [if_neg h1]
  by_cases h2 : st.currentSearchResults ≠ []
  · rw [if_pos h2]
    dsimp only
    have hdisc :
        (if st.discoveredUrls = ∅ then
          match db.discoveredUrls with
          | some s => s
          | none => (∅ : Finset String)
         else st.discoveredUrls) = st.discoveredUrls := by
      split
      · cases hdb : db.discoveredUrls with
        | some s => rw [hd, hdb]; rfl
        | none =>
          rename_i hempty
          rw [hempty]
      · rfl
    rw [hdisc]
    exact ⟨subset_rfl, by simp, rfl, Or.inl rfl⟩
  rw [if_neg h2]
  dsimp only
  cases hsel : selectNextQueryByTier st.searchQueries (restoredUsed st db) none with
  | none =>
    refine ⟨?_, ?_, ?_, Or.inr ?_⟩
    · rw [hrd]
    · intro u hsu
      rw [hru] at hsu
      obtain rfl : st.usedQueryIndices = u := by simpa using hsu
      exact subset_rfl
    · rw [hrd]
    · rw [hru]
  | some p =>
    dsimp only
    cases horacle : oracle { p with maxItems := searchTargetOf st db } with
    | rateLimited meta =>
      refine ⟨by rw [hrd], ?_, by rw [hrd], by rw [hru]⟩
      intro u hsu
      rw [hru] at hsu
      obtain rfl : st.usedQueryIndices = u := by simpa using hsu
      exact subset_rfl
    | failure msg =>
      refine ⟨by rw [hrd], ?_, by rw [hrd], by rw [hru]⟩
      intro u hsu
      rw [hru] at hsu
      obtain rfl : st.usedQueryIndices = u := by simpa using hsu
      exact subset_rfl
    | results results =>
      dsimp only
      obtain ⟨hfd, hfu⟩ := runFallback_sets st.searchQueries (searchTargetOf st db)
        p oracle (newProfilesOf (restoredDiscovered st db) results)
        (restoredDiscovered st db ∪
          ((newProfilesOf (restoredDiscovered st db) results).map
            ProfileHit.profileUrl).toFinset)
        (insert p.queryId (restoredUsed st db))
        { p with maxItems := searchTargetOf st db }
      refine ⟨?_, ?_, rfl, rfl⟩
      · calc st.discoveredUrls = restoredDiscovered st db := hrd.symm
          _ ⊆ _ := Finset.subset_union_left
          _ ⊆ _ := hfd
      · intro u hsu
        obtain rfl := Option.some.inj hsu
        calc st.usedQueryIndices = restoredUsed st db := hru.symm
          _ ⊆ insert p.queryId (restoredUsed st db) := Finset.subset_insert _ _
          _ ⊆ _ := hfu

/-- Behaviour of one `enrichAndCreateCandidates` invocation on the
enriched-URL set: the returned set (when present) only grows the
state's set, and every issued write carries exactly the returned
value. -/
theorem enrichAndCreate_sets (st : EnrichState) (env : EnrichEnv) :
    (∀ u, (enrichAndCreateCandidates st env).update.enrichedUrls = some u →
      st.enrichedUrls ⊆ u) ∧
    (∀ wr, (enrichAndCreateCandidates st env).dbWrite = some wr →
      wr.enrichedUrls = (enrichAndCreateCandidates st env).update.enrichedUrls) ∧
    (enrichAndCreateCandidates st env).dbWrite ≠ none := by
  unfold enrichAndCreateCandidates
  by_cases h1 : enrichStartCount st env ≥ st.maxCandidates
  · rw [if_pos h1]
    refine ⟨by simp, ?_, by simp⟩
    intro wr hwr
    obtain rfl := Option.some.inj hwr
    rfl
  rw [if_neg h1]
  by_cases h2 : env.apiKeyPresent
  · rw [if_neg (by simp [h2])]
    cases hloop : enrichLoop st env st.currentSearchResults (enrichLoopStart st env) with
    | error pair =>
      obtain ⟨acc, meta⟩ := pair
      refine ⟨?_, ?_, by simp⟩
      · intro u hsu
        obtain rfl := Option.some.inj hsu
        exact Finset.subset_union_left
      · intro wr hwr
        obtain rfl := Option.some.inj hwr
        rfl
    | ok acc =>
      refine ⟨?_, ?_, by simp⟩
      · intro u hsu
        obtain rfl := Option.some.inj hsu
        exact Finset.subset_union_left
      · intro wr hwr
        obtain rfl := Option.some.inj hwr
        rfl
  · rw [if_pos (by simp [h2])]
    exact ⟨by simp, fun wr hwr => by obtain rfl := Option.some.inj hwr; rfl, by simp⟩

/-- One stage invocation preserves the write-through invariant and
never shrinks any of the three in-memory tracking sets. -/
theorem stepCall_mono (w : SetsWorld) (c : StageCall) (h : SetsInv w) :
    SetsInv (stepCall w c) ∧
    w.memDiscovered ⊆ (stepCall w c).memDiscovered ∧
    w.memUsed ⊆ (stepCall w c).memUsed ∧
    w.memEnriched ⊆ (stepCall w c).memEnriched := by
  obtain ⟨hD, hU, hE⟩ := h
  cases c with
  | search p =>
    obtain ⟨hmd, hmu, hw⟩ := searchProfiles_sets_mono
      { candidatesWithEmails := p.candidatesWithEmails
        maxCandidates := p.maxCandidates
        currentSearchResults := p.currentSearchResults
        discoveredUrls := w.memDiscovered
        usedQueryIndices := w.memUsed
        searchIterations := p.searchIterations
        searchQueries := p.searchQueries }
      { dbContactCount := p.dbContactCount
        discoveredUrls := w.dbDiscovered
        usedQueryIndices := w.dbUsed }
      p.oracle hD hU
    dsimp only [stepCall]
    set r := searchProfiles
      { candidatesWithEmails := p.candidatesWithEmails
        maxCandidates := p.maxCandidates
        currentSearchResults := p.currentSearchResults
        discoveredUrls := w.memDiscovered
        usedQueryIndices := w.memUsed
        searchIterations := p.searchIterations
        searchQueries := p.searchQueries }
      { dbContactCount := p.dbContactCount
        discoveredUrls := w.dbDiscovered
        usedQueryIndices := w.dbUsed }
      p.oracle with hr
    refine ⟨⟨?_, ?_, hE⟩, ?_, ?_, subset_rfl⟩
    · -- discovered stays synced
      show w.memDiscovered ∪ r.update.discoveredUrls =
        dbSet (match r.dbWrite with
               | some wr => wr.discoveredUrls.or w.dbDiscovered
               | none => w.dbDiscovered)
      cases hwr : r.dbWrite with
      | none =>
        rw [hwr] at hw
        dsimp only at hw
        rw [hw.1, Finset.union_self, hD]
      | some wr =>
        rw [hwr] at hw
        dsimp only at hw ⊢
        rw [hw.1, Finset.union_eq_right.mpr hmd]
        rfl
    · -- used stays synced
      show lastValueReducer w.memUsed r.update.usedQueryIndices =
        dbSet (match r.dbWrite with
               | some wr => wr.usedQueryIndices.or w.dbUsed
               | none => w.dbUsed)
      cases hwr : r.dbWrite with
      | none =>
        rw [hwr] at hw
        dsimp only at hw
        rcases hw.2 with hnone | hsome
        · rw [hnone]; exact hU
        · rw [hsome]; exact hU
      | some wr =>
        rw [hwr] at hw
        dsimp only at hw ⊢
        rw [hw.2]
        cases hupd : r.update.usedQueryIndices with
        | none => exact hU
        | some u => rfl
    · exact Finset.subset_union_left
    · show w.memUsed ⊆ lastValueReducer w.memUsed r.update.usedQueryIndices
      cases hupd : r.update.usedQueryIndices with
      | none => exact subset_rfl
      | some u => exact hmu u hupd
  | enrich p =>
    obtain ⟨hmu, hwv, hwsome⟩ := enrichAndCreate_sets
      { candidatesWithEmails := p.candidatesWithEmails
        maxCandidates := p.maxCandidates
        currentSearchResults := p.currentSearchResults
        enrichedUrls := w.memEnriched }
      p.env
    dsimp only [stepCall]
    set r := enrichAndCreateCandidates
      { candidatesWithEmails := p.candidatesWithEmails
        maxCandidates := p.maxCandidates
        currentSearchResults := p.currentSearchResults
        enrichedUrls := w.memEnriched }
      p.env with hr
    refine ⟨⟨hD, hU, ?_⟩, subset_rfl, subset_rfl, ?_⟩
    · show setUnionReducer w.memEnriched r.update.enrichedUrls =
        dbSet (match r.dbWrite with
               | some wr => wr.enrichedUrls.or w.dbEnriched
               | none => w.dbEnriched)
      cases hwr : r.dbWrite with
      | none => exact absurd hwr hwsome
      | some wr =>
        dsimp only
        rw [hwv wr hwr]
        cases hupd : r.update.enrichedUrls with
        | none => exact hE
        | some u =>
          show w.memEnriched ∪ u = dbSet ((some u).or w.dbEnriched)
          rw [Finset.union_eq_right.mpr (hmu u hupd)]
          rfl
    · show w.memEnriched ⊆ setUnionReducer w.memEnriched r.update.enrichedUrls
      cases hupd : r.update.enrichedUrls with
      | none => exact subset_rfl
      | some u => exact Finset.subset_union_left
  | resume =>
    exact ⟨⟨rfl, rfl, rfl⟩, le_of_eq hD, le_of_eq hU, le_of_eq hE⟩

/-- C7: across every sequence of stage invocations — search iterations,
enrichment passes and crash-recovery state rebuilds, in any order —
starting from a state whose in-memory sets agree with the persisted
columns (as a freshly created job does), the Discovered, Used-Query and
Enriched sets only ever gain elements, and the write-through agreement
is maintained at every step. -/
theorem monotonic_tracking_sets (calls : List StageCall) (w : SetsWorld)
    (h : SetsInv w) :
    SetsInv (runCalls w calls) ∧
    w.memDiscovered ⊆ (runCalls w calls).memDiscovered ∧
    w.memUsed ⊆ (runCalls w calls).memUsed ∧
    w.memEnriched ⊆ (runCalls w calls).memEnriched := by
  induction calls generalizing w with
  | nil => exact ⟨h, subset_rfl, subset_rfl, subset_rfl⟩
  | cons c rest ih =>
    have hstep := stepCall_mono w c h
    have hrest := ih (stepCall w c) hstep.1
    exact ⟨hrest.1, hstep.2.1.trans hrest.2.1,
      hstep.2.2.1.trans hrest.2.2.1, hstep.2.2.2.trans hrest.2.2.2⟩

/-- A fresh job's sets view: empty state, NULL columns. -/
def freshWorld : SetsWorld :=
  { memDiscovered := ∅, memUsed := ∅, memEnriched := ∅
    dbDiscovered := none, dbUsed := none, dbEnriched := none }

/-- A search iteration, an enrichment pass and a crash-recovery rebuild
over the demo plan. -/
def demoCalls : List StageCall :=
  [ .search
      { candidatesWithEmails := 0, maxCandidates := 10
        currentSearchResults := [], searchIterations := 0
        searchQueries := demoPlan, dbContactCount := 0
        oracle := fun _ => .results [⟨"u1"⟩, ⟨"u2"⟩] },
    .enrich
      { candidatesWithEmails := 0, maxCandidates := 10
        currentSearchResults := [⟨"u1"⟩, ⟨"u2"⟩]
        env :=
          { dbContactCount := 0, apiKeyPresent := true
            existing := fun _ => none
            enrich := fun u =>
              .ok { hasEmail := true, email := some (u ++ "@mail.com")
                    phone := none, emailType := some "Direct"
                    emailStatus := some "Valid" }
            createFails := fun _ => false } },
    .resume ]

/-- Witness for `monotonic_tracking_sets`: the three-call demo
trajectory from a fresh job keeps the invariant and grows the sets. -/
theorem monotonic_tracking_sets_witness :
    SetsInv (runCalls freshWorld demoCalls) ∧
    freshWorld.memDiscovered ⊆ (runCalls freshWorld demoCalls).memDiscovered ∧
    freshWorld.memUsed ⊆ (runCalls freshWorld demoCalls).memUsed ∧
    freshWorld.memEnriched ⊆ (runCalls freshWorld demoCalls).memEnriched :=
  monotonic_tracking_sets demoCalls freshWorld ⟨rfl, rfl, rfl⟩

end Sourcing
